import Mathlib

/-!
Shallow embedding of the ArgoCD rollout orchestrator
(`platform/services/argocd.py`, class `ArgoCDService`).

The service talks to the ArgoCD control plane through three kinds of
HTTP calls: `GET /applications/a` (`get_app`), `POST .../sync`
(`sync_app`) and `PATCH /applications/a` (`enable_auto_sync`).  We model
the control plane as an oracle (`Env`) giving the response of the k-th
call of each kind, thread explicit call counters through every
operation, and record a trace of client calls, sleeps and console
messages.  Rich markup tags ([red], [green], ...) are stripped from the
console strings; the spinner/progress UI of `wait_for_health` is pure
terminal decoration and is not modelled.
-/

namespace ArgoCD

/-- The `status.sync` sub-object of an application document
(`app["status"]["sync"]`); its `status` key may be absent. -/
structure SyncObj where
  status : Option String
deriving DecidableEq, Repr

/-- The `status.health` sub-object of an application document. -/
structure HealthObj where
  status : Option String
deriving DecidableEq, Repr

/-- The `status` sub-object of an application document; either of its
`sync` / `health` keys may be absent. -/
structure StatusObj where
  sync : Option SyncObj
  health : Option HealthObj
deriving DecidableEq, Repr

/-- An application document as returned by `GET /api/v1/applications/a`.
Only the part read by the service is modelled: the optional `status`
object.  (A falsy document — Python `{}` — is represented by
`status = none`, which yields the same observable behaviour in every
method that inspects it.) -/
structure AppDoc where
  status : Option StatusObj
deriving DecidableEq, Repr

/-- The field extraction of `get_app_status` (argocd.py lines 191-198):
`status = app.get("status", {})`,
`sync_status = status.get("sync", {}).get("status", "Unknown")`,
`health_status = status.get("health", {}).get("status", "Unknown")`,
with `(Unknown, Unknown)` when the document is absent (`if not app`).
Returns the pair `(sync_status, health_status)`. -/
def get_app_status_pure (app : Option AppDoc) : String × String :=
  match app with
  | none => ("Unknown", "Unknown")
  | some d =>
      let syncStatus :=
        match d.status with
        | none => "Unknown"
        | some st =>
            match st.sync with
            | none => "Unknown"
            | some s => s.status.getD "Unknown"
      let healthStatus :=
        match d.status with
        | none => "Unknown"
        | some st =>
            match st.health with
            | none => "Unknown"
            | some h => h.status.getD "Unknown"
      (syncStatus, healthStatus)

/-! ### HTTP-level model of `get_app` / `get_app_status` (claims about
transport errors).  A response is its status code plus the parsed JSON
body; `requests.Response.raise_for_status` raises exactly for status
codes 400-599, which we model as `Except` with the offending code. -/

/-- A parsed HTTP response of the applications GET endpoint. -/
structure HttpResponse where
  status_code : Nat
  body : Option AppDoc
deriving DecidableEq, Repr

/-- `requests.Response.raise_for_status`: an error for any 4xx or 5xx
status code, a no-op otherwise. -/
def raise_for_status (r : HttpResponse) : Except Nat Unit :=
  if 400 ≤ r.status_code ∧ r.status_code < 600 then Except.error r.status_code
  else Except.ok ()

/-- `ArgoCDService.get_app` (lines 181-187): a 404 response yields
`None`; any other response first goes through `raise_for_status`
(propagating 4xx/5xx as an exception) and is then parsed. -/
def get_app (r : HttpResponse) : Except Nat (Option AppDoc) :=
  if r.status_code = 404 then Except.ok none
  else
    match raise_for_status r with
    | Except.error e => Except.error e
    | Except.ok _ => Except.ok r.body

/-- `ArgoCDService.get_app_status` (lines 189-198) over one HTTP
response: exceptions from `get_app` propagate; an absent document reads
as `(Unknown, Unknown)`. -/
def get_app_status (r : HttpResponse) : Except Nat (String × String) :=
  match get_app r with
  | Except.error e => Except.error e
  | Except.ok app => Except.ok (get_app_status_pure app)

/-! ### Orchestrator-level model.  The remaining methods only ever see
the non-exceptional outcomes of `get_app` (`Option AppDoc`) and the
status codes of the sync POST / auto-sync PATCH, so the control plane is
an oracle over call indices. -/

/-- Trace events: client calls (a `getApp` event records the index of
the call, so its oracle response is recoverable), sleeps, and console
messages. -/
inductive Event where
  | getApp (app : String) (idx : Nat)
  | syncPost (app : String)
  | patch (app : String)
  | sleep (secs : Nat)
  | console (msg : String)
deriving DecidableEq, Repr

/-- The control plane as an oracle: the response of the k-th
application GET (by call index and name), and the HTTP status codes of
the k-th sync POST and k-th policy PATCH. -/
structure Env where
  getApp : Nat → String → Option AppDoc
  syncCode : Nat → String → Nat
  patchCode : Nat → String → Nat

/-- How many calls of each kind have been made so far. -/
structure Counters where
  g : Nat
  s : Nat
  p : Nat
deriving DecidableEq, Repr

/-- One `self.get_app(base_url, app_name)` call as seen by the
orchestrator: consumes the next GET response. -/
def getAppCall (e : Env) (c : Counters) (app : String) :
    Option AppDoc × Counters × List Event :=
  (e.getApp c.g app, ⟨c.g + 1, c.s, c.p⟩, [Event.getApp app c.g])

/-- One `self.get_app_status(base_url, app_name)` call. -/
def getAppStatusCall (e : Env) (c : Counters) (app : String) :
    (String × String) × Counters × List Event :=
  let r := getAppCall e c app
  (get_app_status_pure r.1, r.2.1, r.2.2)

/-- `ArgoCDService.sync_app` (lines 200-218): POST the sync request,
return `True` on a 200/201 status code, otherwise log the code and
return `False`. -/
def sync_app (e : Env) (c : Counters) (app : String) :
    Bool × Counters × List Event :=
  let code := e.syncCode c.s app
  let c1 : Counters := ⟨c.g, c.s + 1, c.p⟩
  if code = 200 ∨ code = 201 then
    (true, c1, [Event.console ("Syncing " ++ app ++ "..."), Event.syncPost app])
  else
    (false, c1,
      [Event.console ("Syncing " ++ app ++ "..."), Event.syncPost app,
       Event.console ("Sync request returned " ++ toString code)])

/-- `ArgoCDService.wait_for_health` (lines 220-255): while the elapsed
time `t` is below `timeout`, poll the status; succeed when
`health == target ∧ sync == "Synced"`, fail at once on
`health == "Degraded"`, otherwise sleep 5 and repeat; failing with a
timeout message once the budget is exhausted.  Time advances only by
the 5-unit sleeps, so the poll at iteration i happens at `t = 5 * i`. -/
def wait_for_health (e : Env) (c : Counters) (app : String)
    (timeout : Nat) (target : String) (t : Nat) :
    Bool × Counters × List Event :=
  if t < timeout then
    let r := getAppStatusCall e c app
    let syncStatus := r.1.1
    let healthStatus := r.1.2
    if healthStatus = target ∧ syncStatus = "Synced" then
      (true, r.2.1, r.2.2 ++ [Event.console (app ++ " is " ++ healthStatus)])
    else if healthStatus = "Degraded" then
      (false, r.2.1, r.2.2 ++ [Event.console (app ++ " is Degraded")])
    else
      let k := wait_for_health e r.2.1 app timeout target (t + 5)
      (k.1, k.2.1, r.2.2 ++ [Event.sleep 5] ++ k.2.2)
  else
    (false, c, [Event.console ("Timeout waiting for " ++ app)])
termination_by timeout - t
decreasing_by omega

/-- `ArgoCDService.enable_auto_sync` (lines 257-286): read the
application (give up with a console message if absent), then PATCH the
sync policy, logging success or failure of the PATCH; never signals
failure to its caller (the Python method returns `None`). -/
def enable_auto_sync (e : Env) (c : Counters) (app : String) :
    Counters × List Event :=
  let r := getAppCall e c app
  match r.1 with
  | none =>
      (r.2.1, r.2.2 ++ [Event.console ("Application " ++ app ++ " not found")])
  | some _ =>
      let code := e.patchCode r.2.1.p app
      let c2 : Counters := ⟨r.2.1.g, r.2.1.s, r.2.1.p + 1⟩
      if code = 200 then
        (c2, r.2.2 ++ [Event.patch app,
          Event.console ("Enabled auto-sync for " ++ app)])
      else
        (c2, r.2.2 ++ [Event.patch app,
          Event.console ("Failed to enable auto-sync: " ++ toString code)])

/-- The await-existence loop of `sync_in_order` (lines 315-319):
`while self.get_app(...) is None and retries < 12: log; sleep(5);
retries += 1`.  Python evaluates `get_app` first, so the GET happens
even on the final evaluation of the condition (when `retries = 12`).
`fuel` stands for `12 - retries`, so the loop is entered with
`fuel = 12`. -/
def waitExist (e : Env) (app : String) (c : Counters) (fuel : Nat) :
    Counters × List Event :=
  let r := getAppCall e c app
  match r.1 with
  | some _ => (r.2.1, r.2.2)
  | none =>
      match fuel with
      | 0 => (r.2.1, r.2.2)
      | Nat.succ f =>
          let k := waitExist e app r.2.1 f
          (k.1, r.2.2 ++
            [Event.console ("Waiting for " ++ app ++ " to be created..."),
             Event.sleep 5] ++ k.2)

/-- The body of the per-application `for` loop of `sync_in_order`
(lines 313-333): await existence (then re-check once more — the Python
`if self.get_app(...) is None` performs a fresh GET), fail with a
not-found message if still absent; otherwise trigger a sync (result
discarded), wait for health, fail on an unhealthy outcome, and finally
enable auto-sync. -/
def runStage (e : Env) (c : Counters) (app : String) (timeout : Nat) :
    Bool × Counters × List Event :=
  let w := waitExist e app c 12
  let r := getAppCall e w.1 app
  match r.1 with
  | none =>
      (false, r.2.1, w.2 ++ r.2.2 ++
        [Event.console ("Application " ++ app ++ " not found")])
  | some _ =>
      let s := sync_app e r.2.1 app
      let h := wait_for_health e s.2.1 app timeout "Healthy" 0
      if h.1 then
        let en := enable_auto_sync e h.2.1 app
        (true, en.1, w.2 ++ r.2.2 ++ s.2.2 ++ h.2.2 ++ en.2)
      else
        (false, h.2.1, w.2 ++ r.2.2 ++ s.2.2 ++ h.2.2 ++
          [Event.console ("Failed to sync " ++ app),
           Event.console "Check ArgoCD UI for details"])

/-- The stage sequencing of `sync_in_order`: run the stages in order,
stopping at the first failure (`return False` aborts the whole loop). -/
def syncStages (e : Env) (c : Counters) :
    List (String × Nat) → Bool × Counters × List Event
  | [] => (true, c, [])
  | (app, timeout) :: rest =>
      let r := runStage e c app timeout
      if r.1 then
        let k := syncStages e r.2.1 rest
        (k.1, k.2.1, r.2.2 ++ k.2.2)
      else
        (false, r.2.1, r.2.2)

/-- The fixed stage list of `sync_in_order` (lines 298-303). -/
def appsFor (env : String) : List (String × Nat) :=
  [("crossplane-" ++ env, 300),
   ("crossplane-providers-" ++ env, 600),
   ("infrastructure-" ++ env, 900),
   ("supabase-" ++ env, 300)]

/-- `ArgoCDService.sync_in_order` (lines 288-336): run the four stages
in dependency order from fresh call counters; the Python method returns
only a boolean, which we pair with the recorded trace. -/
def sync_in_order (e : Env) (env : String) : Bool × List Event :=
  let r := syncStages e ⟨0, 0, 0⟩ (appsFor env)
  if r.1 then
    (true, r.2.2 ++ [Event.console "All applications synced successfully!"])
  else
    (false, r.2.2)

/-! ### Observables used by the specification statements. -/

/-- The `(sync, health)` pair that the i-th status poll returns when the
GET call counter stood at `g` beforehand. -/
def pollPair (e : Env) (app : String) (g i : Nat) : String × String :=
  get_app_status_pure (e.getApp (g + i) app)

/-- The target condition of `wait_for_health`:
`health == target AND sync == "Synced"`. -/
def hitsTarget (st : String × String) (target : String) : Prop :=
  st.2 = target ∧ st.1 = "Synced"

/-- The short-circuit condition of `wait_for_health`:
`health == "Degraded"`. -/
def degradedSt (st : String × String) : Prop :=
  st.2 = "Degraded"

/-- A status pair on which `wait_for_health` stops polling. -/
def terminalSt (st : String × String) (target : String) : Prop :=
  hitsTarget st target ∨ degradedSt st

instance (st : String × String) (target : String) :
    Decidable (hitsTarget st target) := by
  unfold hitsTarget; infer_instance

instance (st : String × String) : Decidable (degradedSt st) := by
  unfold degradedSt; infer_instance

instance (st : String × String) (target : String) :
    Decidable (terminalSt st target) := by
  unfold terminalSt; infer_instance

/-- The trace left by `n` consecutive non-terminal polls of
`wait_for_health` starting at GET counter `g`. -/
def pollEvents (app : String) (g : Nat) : Nat → List Event
  | 0 => []
  | Nat.succ n =>
      [Event.getApp app g, Event.sleep 5] ++ pollEvents app (g + 1) n

/-- The trace left by `n` unsuccessful iterations of the
await-existence loop starting at GET counter `g`. -/
def existEvents (app : String) (g : Nat) : Nat → List Event
  | 0 => []
  | Nat.succ n =>
      [Event.getApp app g,
       Event.console ("Waiting for " ++ app ++ " to be created..."),
       Event.sleep 5] ++ existEvents app (g + 1) n

/-- The application a client-call event addresses, if the event is a
client call at all (console output and sleeps give `none`). -/
def callApp : Event → Option String
  | Event.getApp a _ => some a
  | Event.syncPost a => some a
  | Event.patch a => some a
  | Event.sleep _ => none
  | Event.console _ => none

/-- Whether an event is the auto-sync PATCH. -/
def isPatchEv : Event → Bool
  | Event.patch _ => true
  | _ => false

/-! ### Session-token cache (`_get_token` / `_api_request`,
lines 141-179).  `self._token` starts as `None`; `_get_token` returns it
when it is truthy (Python: non-`None` and non-empty), otherwise reads
the admin password from the cluster secret, exchanges it for a session
token and stores that.  Every `_api_request` obtains its bearer token
through `_get_token`. -/

/-- The authentication backend: the admin password stored in the
cluster secret, and the token handed out by the k-th session
exchange. -/
structure AuthEnv where
  adminPassword : String
  sessionToken : Nat → String

/-- Authentication side effects. -/
inductive AuthEvent where
  | readSecret
  | sessionPost (password : String)
deriving DecidableEq, Repr

/-- Python truthiness of `self._token`: `if self._token:` is false both
for `None` and for the empty string. -/
def tokenTruthy : Option String → Bool
  | none => false
  | some t => !(t == "")

/-- `ArgoCDService._get_token`: return the cached token when truthy;
otherwise read the admin password, exchange it for a session token,
cache and return it.  Arguments and results carry the cache state and
the number of session exchanges performed so far. -/
def get_token (a : AuthEnv) (st : Option String) (n : Nat) :
    String × Option String × Nat × List AuthEvent :=
  if tokenTruthy st then (st.getD "", st, n, [])
  else
    let tok := a.sessionToken n
    (tok, some tok, n + 1,
      [AuthEvent.readSecret, AuthEvent.sessionPost a.adminPassword])

/-- The authentication part of `ArgoCDService._api_request`: obtain the
bearer token through `_get_token`; the returned `String` is the token
put in the Authorization header. -/
def api_request (a : AuthEnv) (st : Option String) (n : Nat) :
    String × Option String × Nat × List AuthEvent :=
  get_token a st n

/-- A sequence of `m` consecutive `_api_request` calls on one client
instance: returns the list of bearer tokens used, the final cache
state, the final exchange count and the authentication events. -/
def apiRequests (a : AuthEnv) :
    Option String → Nat → Nat → List String × Option String × Nat × List AuthEvent
  | st, n, 0 => ([], st, n, [])
  | st, n, Nat.succ m =>
      let r := api_request a st n
      let k := apiRequests a r.2.1 r.2.2.1 m
      (r.1 :: k.1, k.2.1, k.2.2.1, r.2.2.2 ++ k.2.2.2)

/-! ### Concrete documents and control planes used to instantiate the
theorems on closed inputs. -/

/-- A synced, healthy application document. -/
def docHealthy : AppDoc := ⟨some ⟨some ⟨some "Synced"⟩, some ⟨some "Healthy"⟩⟩⟩

/-- An out-of-sync, degraded application document. -/
def docDegraded : AppDoc := ⟨some ⟨some ⟨some "OutOfSync"⟩, some ⟨some "Degraded"⟩⟩⟩

/-- An out-of-sync, progressing application document. -/
def docProgressing : AppDoc :=
  ⟨some ⟨some ⟨some "OutOfSync"⟩, some ⟨some "Progressing"⟩⟩⟩

/-- A control plane on which every application is registered, synced
and healthy, and every action succeeds. -/
def envHealthy : Env :=
  ⟨fun _ _ => some docHealthy, fun _ _ => 200, fun _ _ => 200⟩

/-- A control plane on which no application is ever registered. -/
def envAbsent : Env :=
  ⟨fun _ _ => none, fun _ _ => 200, fun _ _ => 200⟩

/-- A control plane on which every application is registered but
permanently degraded. -/
def envDegraded : Env :=
  ⟨fun _ _ => some docDegraded, fun _ _ => 200, fun _ _ => 200⟩

/-- A control plane whose first 13 application GETs report the
application missing and which then reports it synced and healthy, with
every action succeeding. -/
def envLate : Env :=
  ⟨fun k _ => if k < 13 then none else some docHealthy,
   fun _ _ => 200, fun _ _ => 200⟩

/-- Like `envHealthy`, but the sync POST is rejected with a 409 (an
operation is already in progress). -/
def envSyncBusy : Env :=
  ⟨fun _ _ => some docHealthy, fun _ _ => 409, fun _ _ => 200⟩

/-- Like `envHealthy`, but the auto-sync PATCH fails with a 500. -/
def envPatchFail : Env :=
  ⟨fun _ _ => some docHealthy, fun _ _ => 200, fun _ _ => 500⟩

/-- A control plane on which `crossplane-x` is immediately healthy but
`crossplane-providers-x` is permanently degraded. -/
def envSecondDegraded : Env :=
  ⟨fun _ a => if a = "crossplane-x" then some docHealthy
    else if a = "crossplane-providers-x" then some docDegraded
    else none,
   fun _ _ => 200, fun _ _ => 200⟩

/-- An authentication backend handing out the fixed nonempty token
`tok0` on every exchange. -/
def authGood : AuthEnv := ⟨"pw", fun _ => "tok0"⟩

/-- An authentication backend handing out an empty session token. -/
def authEmptyTok : AuthEnv := ⟨"pw", fun _ => ""⟩

/-!
## Lemma layer

General characterizations of the polling loops, proved once and shared
by the claim theorems below.
-/

lemma wfh_stop_target (e : Env) (app target : String) (timeout : Nat) :
    ∀ (i t : Nat) (c : Counters),
      t + 5 * i < timeout →
      (∀ j, j < i → ¬ terminalSt (pollPair e app c.g j) target) →
      hitsTarget (pollPair e app c.g i) target →
      wait_for_health e c app timeout target t =
        (true, ⟨c.g + i + 1, c.s, c.p⟩,
          pollEvents app c.g i ++
            [Event.getApp app (c.g + i),
             Event.console (app ++ " is " ++ target)]) := by
  intro i
  induction i with
  | zero =>
      intro t c hbud _ htar
      obtain ⟨cg, cs, cp⟩ := c
      rw [wait_for_health]
      rw [if_pos (by omega)]
      simp only [getAppStatusCall, getAppCall] at *
      unfold pollPair hitsTarget at htar
      simp only [Nat.add_zero] at htar ⊢
      rw [if_pos htar]
      simp [pollEvents, htar.1]
  | succ i ih =>
      intro t c hbud hpre htar
      obtain ⟨cg, cs, cp⟩ := c
      have h0 : ¬ terminalSt (pollPair e app cg 0) target := hpre 0 (by omega)
      unfold terminalSt at h0
      rw [not_or] at h0
      unfold hitsTarget degradedSt pollPair at h0
      rw [wait_for_health]
      rw [if_pos (by omega)]
      simp only [getAppStatusCall, getAppCall]
      simp only [Nat.add_zero] at h0
      rw [if_neg h0.1, if_neg h0.2]
      have hrec := ih (t + 5) ⟨cg + 1, cs, cp⟩ (by omega)
        (by
          intro j hj
          have := hpre (j + 1) (by omega)
          simpa [pollPair, Nat.add_assoc, Nat.add_comm 1 j] using this)
        (by
          simpa [pollPair, Nat.add_assoc, Nat.add_comm 1 i] using htar)
      simp only at hrec
      rw [hrec]
      simp [pollEvents, Nat.add_assoc, Nat.add_comm 1 i]

lemma wfh_stop_degraded (e : Env) (app target : String) (timeout : Nat) :
    ∀ (i t : Nat) (c : Counters),
      t + 5 * i < timeout →
      (∀ j, j < i → ¬ terminalSt (pollPair e app c.g j) target) →
      ¬ hitsTarget (pollPair e app c.g i) target →
      degradedSt (pollPair e app c.g i) →
      wait_for_health e c app timeout target t =
        (false, ⟨c.g + i + 1, c.s, c.p⟩,
          pollEvents app c.g i ++
            [Event.getApp app (c.g + i),
             Event.console (app ++ " is Degraded")]) := by
  intro i
  induction i with
  | zero =>
      intro t c hbud _ hnt hdeg
      obtain ⟨cg, cs, cp⟩ := c
      rw [wait_for_health]
      rw [if_pos (by omega)]
      simp only [getAppStatusCall, getAppCall]
      unfold pollPair hitsTarget at hnt
      unfold pollPair degradedSt at hdeg
      simp only [Nat.add_zero] at hnt hdeg ⊢
      rw [if_neg hnt, if_pos hdeg]
      simp [pollEvents]
  | succ i ih =>
      intro t c hbud hpre hnt hdeg
      obtain ⟨cg, cs, cp⟩ := c
      have h0 : ¬ terminalSt (pollPair e app cg 0) target := hpre 0 (by omega)
      unfold terminalSt at h0
      rw [not_or] at h0
      unfold hitsTarget degradedSt pollPair at h0
      rw [wait_for_health]
      rw [if_pos (by omega)]
      simp only [getAppStatusCall, getAppCall]
      simp only [Nat.add_zero] at h0
      rw [if_neg h0.1, if_neg h0.2]
      have hrec := ih (t + 5) ⟨cg + 1, cs, cp⟩ (by omega)
        (by
          intro j hj
          have := hpre (j + 1) (by omega)
          simpa [pollPair, Nat.add_assoc, Nat.add_comm 1 j] using this)
        (by
          simpa [pollPair, Nat.add_assoc, Nat.add_comm 1 i] using hnt)
        (by
          simpa [pollPair, Nat.add_assoc, Nat.add_comm 1 i] using hdeg)
      simp only at hrec
      rw [hrec]
      simp [pollEvents, Nat.add_assoc, Nat.add_comm 1 i]

lemma wfh_timeout_aux (e : Env) (app target : String) (timeout : Nat) :
    ∀ (n t : Nat) (c : Counters),
      timeout ≤ t + 5 * n →
      (∀ i, t + 5 * i < timeout → ¬ terminalSt (pollPair e app c.g i) target) →
      ∃ m, wait_for_health e c app timeout target t =
        (false, ⟨c.g + m, c.s, c.p⟩,
          pollEvents app c.g m ++
            [Event.console ("Timeout waiting for " ++ app)]) := by
  intro n
  induction n with
  | zero =>
      intro t c hn _
      refine ⟨0, ?_⟩
      obtain ⟨cg, cs, cp⟩ := c
      rw [wait_for_health]
      rw [if_neg (by omega)]
      simp [pollEvents]
  | succ n ih =>
      intro t c hn hnt
      obtain ⟨cg, cs, cp⟩ := c
      by_cases ht : t < timeout
      · have h0 : ¬ terminalSt (pollPair e app cg 0) target :=
          hnt 0 (by omega)
        unfold terminalSt at h0
        rw [not_or] at h0
        unfold hitsTarget degradedSt pollPair at h0
        rw [wait_for_health]
        rw [if_pos ht]
        simp only [getAppStatusCall, getAppCall]
        simp only [Nat.add_zero] at h0
        rw [if_neg h0.1, if_neg h0.2]
        obtain ⟨m, hm⟩ := ih (t + 5) ⟨cg + 1, cs, cp⟩ (by omega)
          (by
            intro i hi
            have := hnt (i + 1) (by omega)
            simpa [pollPair, Nat.add_assoc, Nat.add_comm 1 i] using this)
        refine ⟨m + 1, ?_⟩
        simp only at hm
        rw [hm]
        simp [pollEvents, Nat.add_assoc, Nat.add_comm 1 m]
      · refine ⟨0, ?_⟩
        rw [wait_for_health]
        rw [if_neg ht]
        simp [pollEvents]

lemma wfh_true_iff (e : Env) (app target : String) (timeout t : Nat) (c : Counters) :
    (wait_for_health e c app timeout target t).1 = true ↔
      ∃ i, t + 5 * i < timeout ∧ hitsTarget (pollPair e app c.g i) target ∧
        ∀ j, j < i → ¬ terminalSt (pollPair e app c.g j) target := by
  constructor
  · intro htrue
    by_cases hex : ∃ i, t + 5 * i < timeout ∧ terminalSt (pollPair e app c.g i) target
    · classical
      have := Nat.find_spec hex
      set i0 := Nat.find hex with hi0
      have hmin : ∀ j, j < i0 →
          ¬ (t + 5 * j < timeout ∧ terminalSt (pollPair e app c.g j) target) :=
        fun j hj => Nat.find_min hex hj
      have hmin' : ∀ j, j < i0 → ¬ terminalSt (pollPair e app c.g j) target := by
        intro j hj hterm
        exact hmin j hj ⟨by omega, hterm⟩
      rcases this.2 with htar | hdeg
      · exact ⟨i0, this.1, htar, hmin'⟩
      · by_cases htar : hitsTarget (pollPair e app c.g i0) target
        · exact ⟨i0, this.1, htar, hmin'⟩
        · have heq := wfh_stop_degraded e app target timeout i0 t c this.1 hmin' htar hdeg
          rw [heq] at htrue
          simp at htrue
    · push_neg at hex
      have hnt : ∀ i, t + 5 * i < timeout →
          ¬ terminalSt (pollPair e app c.g i) target := by
        intro i hi
        exact hex i hi
      obtain ⟨m, hm⟩ := wfh_timeout_aux e app target timeout timeout t c (by omega) hnt
      rw [hm] at htrue
      simp at htrue
  · rintro ⟨i, hbud, htar, hpre⟩
    rw [wfh_stop_target e app target timeout i t c hbud hpre htar]

lemma wfh_false_iff (e : Env) (app target : String) (timeout t : Nat) (c : Counters) :
    (wait_for_health e c app timeout target t).1 = false ↔
      (∃ i, t + 5 * i < timeout ∧ ¬ hitsTarget (pollPair e app c.g i) target ∧
        degradedSt (pollPair e app c.g i) ∧
        ∀ j, j < i → ¬ terminalSt (pollPair e app c.g j) target) ∨
      (∀ i, t + 5 * i < timeout → ¬ terminalSt (pollPair e app c.g i) target) := by
  constructor
  · intro hfalse
    by_cases hex : ∃ i, t + 5 * i < timeout ∧ terminalSt (pollPair e app c.g i) target
    · classical
      have := Nat.find_spec hex
      set i0 := Nat.find hex with hi0
      have hmin' : ∀ j, j < i0 → ¬ terminalSt (pollPair e app c.g j) target := by
        intro j hj hterm
        exact Nat.find_min hex hj ⟨by omega, hterm⟩
      by_cases htar : hitsTarget (pollPair e app c.g i0) target
      · have heq := wfh_stop_target e app target timeout i0 t c this.1 hmin' htar
        rw [heq] at hfalse
        simp at hfalse
      · have hdeg : degradedSt (pollPair e app c.g i0) := by
          rcases this.2 with h | h
          · exact absurd h htar
          · exact h
        exact Or.inl ⟨i0, this.1, htar, hdeg, hmin'⟩
    · push_neg at hex
      exact Or.inr fun i hi => hex i hi
  · rintro (⟨i, hbud, hnt, hdeg, hpre⟩ | hall)
    · rw [wfh_stop_degraded e app target timeout i t c hbud hpre hnt hdeg]
    · obtain ⟨m, hm⟩ := wfh_timeout_aux e app target timeout timeout t c (by omega) hall
      rw [hm]

lemma pollEvents_mem (app : String) :
    ∀ (n g : Nat) (ev : Event), ev ∈ pollEvents app g n →
      (∃ k, ev = Event.getApp app k) ∨ ev = Event.sleep 5 := by
  intro n
  induction n with
  | zero => intro g ev h; simp [pollEvents] at h
  | succ n ih =>
      intro g ev h
      simp only [pollEvents, List.cons_append, List.nil_append, List.mem_cons] at h
      rcases h with h | h | h
      · exact Or.inl ⟨g, h⟩
      · exact Or.inr h
      · exact ih (g + 1) ev h

lemma existEvents_mem (app : String) :
    ∀ (n g : Nat) (ev : Event), ev ∈ existEvents app g n →
      (∃ k, ev = Event.getApp app k) ∨
      ev = Event.console ("Waiting for " ++ app ++ " to be created...") ∨
      ev = Event.sleep 5 := by
  intro n
  induction n with
  | zero => intro g ev h; simp [existEvents] at h
  | succ n ih =>
      intro g ev h
      simp only [existEvents, List.cons_append, List.nil_append, List.mem_cons] at h
      rcases h with h | h | h | h
      · exact Or.inl ⟨g, h⟩
      · exact Or.inr (Or.inl h)
      · exact Or.inr (Or.inr h)
      · exact ih (g + 1) ev h

lemma wfh_shape (e : Env) (app target : String) (timeout : Nat) :
    ∀ (n t : Nat) (c : Counters),
      timeout ≤ t + 5 * n →
      ∀ ev ∈ (wait_for_health e c app timeout target t).2.2,
        (∃ k, ev = Event.getApp app k) ∨ ev = Event.sleep 5 ∨
        ∃ m, ev = Event.console m := by
  intro n
  induction n with
  | zero =>
      intro t c hn ev hev
      rw [wait_for_health, if_neg (by omega)] at hev
      simp at hev
      exact Or.inr (Or.inr ⟨_, hev⟩)
  | succ n ih =>
      intro t c hn ev hev
      by_cases ht : t < timeout
      · rw [wait_for_health, if_pos ht] at hev
        simp only [getAppStatusCall, getAppCall] at hev
        by_cases h1 : (get_app_status_pure (e.getApp c.g app)).2 = target ∧
            (get_app_status_pure (e.getApp c.g app)).1 = "Synced"
        · rw [if_pos h1] at hev
          simp at hev
          rcases hev with h | h
          · exact Or.inl ⟨_, h⟩
          · exact Or.inr (Or.inr ⟨_, h⟩)
        · rw [if_neg h1] at hev
          by_cases h2 : (get_app_status_pure (e.getApp c.g app)).2 = "Degraded"
          · rw [if_pos h2] at hev
            simp at hev
            rcases hev with h | h
            · exact Or.inl ⟨_, h⟩
            · exact Or.inr (Or.inr ⟨_, h⟩)
          · rw [if_neg h2] at hev
            simp only [List.cons_append, List.nil_append, List.mem_cons] at hev
            rcases hev with h | h | h
            · exact Or.inl ⟨_, h⟩
            · exact Or.inr (Or.inl h)
            · exact ih (t + 5) _ (by omega) ev h
      · rw [wait_for_health, if_neg ht] at hev
        simp at hev
        exact Or.inr (Or.inr ⟨_, hev⟩)

lemma wfh_congr (e e2 : Env) (hg : e.getApp = e2.getApp)
    (app target : String) (timeout : Nat) :
    ∀ (n t : Nat) (c : Counters),
      timeout ≤ t + 5 * n →
      wait_for_health e c app timeout target t =
        wait_for_health e2 c app timeout target t := by
  intro n
  induction n with
  | zero =>
      intro t c hn
      rw [wait_for_health, wait_for_health, if_neg (by omega), if_neg (by omega)]
  | succ n ih =>
      intro t c hn
      by_cases ht : t < timeout
      · rw [wait_for_health, wait_for_health, if_pos ht, if_pos ht]
        simp only [getAppStatusCall, getAppCall, hg]
        rw [ih (t + 5) _ (by omega)]
      · rw [wait_for_health, wait_for_health, if_neg ht, if_neg ht]

lemma waitExist_all_none (e : Env) (app : String) :
    ∀ (fuel : Nat) (c : Counters),
      (∀ k, k ≤ fuel → e.getApp (c.g + k) app = none) →
      waitExist e app c fuel =
        (⟨c.g + fuel + 1, c.s, c.p⟩,
          existEvents app c.g fuel ++ [Event.getApp app (c.g + fuel)]) := by
  intro fuel
  induction fuel with
  | zero =>
      intro c hall
      obtain ⟨cg, cs, cp⟩ := c
      have h0 : e.getApp cg app = none := by simpa using hall 0 (by omega)
      rw [waitExist.eq_def]
      simp [getAppCall, h0, existEvents]
  | succ fuel ih =>
      intro c hall
      obtain ⟨cg, cs, cp⟩ := c
      have h0 : e.getApp cg app = none := by simpa using hall 0 (by omega)
      rw [waitExist.eq_def]
      simp only [getAppCall, h0]
      have hrec := ih ⟨cg + 1, cs, cp⟩
        (by
          intro k hk
          have := hall (k + 1) (by omega)
          simpa [Nat.add_assoc, Nat.add_comm 1 k] using this)
      simp only at hrec
      rw [hrec]
      simp [existEvents, Nat.add_assoc, Nat.add_comm 1 fuel]

lemma waitExist_found (e : Env) (app : String) :
    ∀ (k fuel : Nat) (c : Counters),
      k ≤ fuel →
      (∀ j, j < k → e.getApp (c.g + j) app = none) →
      e.getApp (c.g + k) app ≠ none →
      waitExist e app c fuel =
        (⟨c.g + k + 1, c.s, c.p⟩,
          existEvents app c.g k ++ [Event.getApp app (c.g + k)]) := by
  intro k
  induction k with
  | zero =>
      intro fuel c _ _ hfound
      obtain ⟨cg, cs, cp⟩ := c
      simp only [Nat.add_zero] at hfound ⊢
      obtain ⟨d, hd⟩ := Option.ne_none_iff_exists.mp (by simpa using hfound)
      rw [waitExist.eq_def]
      simp [getAppCall, ← hd, existEvents]
  | succ k ih =>
      intro fuel c hk hpre hfound
      obtain ⟨cg, cs, cp⟩ := c
      obtain ⟨fuel, rfl⟩ : ∃ f, fuel = f + 1 := ⟨fuel - 1, by omega⟩
      have h0 : e.getApp cg app = none := by simpa using hpre 0 (by omega)
      rw [waitExist.eq_def]
      simp only [getAppCall, h0]
      have hrec := ih fuel ⟨cg + 1, cs, cp⟩ (by omega)
        (by
          intro j hj
          have := hpre (j + 1) (by omega)
          simpa [Nat.add_assoc, Nat.add_comm 1 j] using this)
        (by
          simpa [Nat.add_assoc, Nat.add_comm 1 k] using hfound)
      simp only at hrec
      rw [hrec]
      simp [existEvents, Nat.add_assoc, Nat.add_comm 1 k]

lemma waitExist_shape (e : Env) (app : String) :
    ∀ (fuel : Nat) (c : Counters),
      ∀ ev ∈ (waitExist e app c fuel).2,
        (∃ k, ev = Event.getApp app k) ∨
        ev = Event.console ("Waiting for " ++ app ++ " to be created...") ∨
        ev = Event.sleep 5 := by
  intro fuel
  induction fuel with
  | zero =>
      intro c ev hev
      rw [waitExist.eq_def] at hev
      rcases h : e.getApp c.g app with _ | d <;>
        simp [getAppCall, h] at hev <;>
        exact Or.inl ⟨_, hev⟩
  | succ fuel ih =>
      intro c ev hev
      rw [waitExist.eq_def] at hev
      rcases h : e.getApp c.g app with _ | d
      · simp only [getAppCall, h, List.cons_append, List.nil_append,
          List.mem_cons] at hev
        rcases hev with h1 | h1 | h1 | h1
        · exact Or.inl ⟨_, h1⟩
        · exact Or.inr (Or.inl h1)
        · exact Or.inr (Or.inr h1)
        · exact ih _ ev h1
      · simp [getAppCall, h] at hev
        exact Or.inl ⟨_, hev⟩

lemma waitExist_congr (e e2 : Env) (hg : e.getApp = e2.getApp) (app : String) :
    ∀ (fuel : Nat) (c : Counters),
      waitExist e app c fuel = waitExist e2 app c fuel := by
  intro fuel
  induction fuel with
  | zero => intro c; rw [waitExist.eq_def, waitExist.eq_def]; simp [getAppCall, hg]
  | succ fuel ih =>
      intro c
      rw [waitExist.eq_def, waitExist.eq_def]
      simp only [getAppCall, hg]
      rcases h : e2.getApp c.g app with _ | d
      · simp only [h, ih]
      · simp only [h]

lemma sync_app_counters (e : Env) (c : Counters) (app : String) :
    (sync_app e c app).2.1 = ⟨c.g, c.s + 1, c.p⟩ := by
  unfold sync_app
  by_cases h : e.syncCode c.s app = 200 ∨ e.syncCode c.s app = 201 <;>
    simp [h]

lemma sync_app_shape (e : Env) (c : Counters) (app : String) :
    ∀ ev ∈ (sync_app e c app).2.2,
      (∃ m, ev = Event.console m) ∨ ev = Event.syncPost app := by
  intro ev hev
  unfold sync_app at hev
  by_cases h : e.syncCode c.s app = 200 ∨ e.syncCode c.s app = 201
  · simp [h] at hev
    rcases hev with h1 | h1
    · exact Or.inl ⟨_, h1⟩
    · exact Or.inr h1
  · simp [h] at hev
    rcases hev with h1 | h1 | h1
    · exact Or.inl ⟨_, h1⟩
    · exact Or.inr h1
    · exact Or.inl ⟨_, h1⟩

lemma sync_app_nack (e : Env) (c : Counters) (app : String)
    (h200 : ¬ e.syncCode c.s app = 200) (h201 : ¬ e.syncCode c.s app = 201) :
    (sync_app e c app).1 = false ∧
      Event.console ("Sync request returned " ++ toString (e.syncCode c.s app)) ∈
        (sync_app e c app).2.2 := by
  unfold sync_app
  rw [if_neg (by tauto)]
  simp

lemma enable_none (e : Env) (c : Counters) (app : String)
    (h : e.getApp c.g app = none) :
    enable_auto_sync e c app =
      (⟨c.g + 1, c.s, c.p⟩,
        [Event.getApp app c.g,
         Event.console ("Application " ++ app ++ " not found")]) := by
  unfold enable_auto_sync getAppCall
  simp [h]

lemma enable_some (e : Env) (c : Counters) (app : String) (d : AppDoc)
    (h : e.getApp c.g app = some d) :
    ∃ m, enable_auto_sync e c app =
      (⟨c.g + 1, c.s, c.p + 1⟩,
        [Event.getApp app c.g, Event.patch app, Event.console m]) := by
  unfold enable_auto_sync getAppCall
  simp only [h]
  by_cases hc : e.patchCode c.p app = 200
  · exact ⟨"Enabled auto-sync for " ++ app, by simp [hc]⟩
  · exact ⟨"Failed to enable auto-sync: " ++ toString (e.patchCode c.p app),
      by simp [hc]⟩

lemma enable_shape (e : Env) (c : Counters) (app : String) :
    ∀ ev ∈ (enable_auto_sync e c app).2,
      (∃ k, ev = Event.getApp app k) ∨ ev = Event.patch app ∨
      ∃ m, ev = Event.console m := by
  intro ev hev
  rcases h : e.getApp c.g app with _ | d
  · rw [enable_none e c app h] at hev
    simp at hev
    rcases hev with h1 | h1
    · exact Or.inl ⟨_, h1⟩
    · exact Or.inr (Or.inr ⟨_, h1⟩)
  · obtain ⟨m, hm⟩ := enable_some e c app d h
    rw [hm] at hev
    simp at hev
    rcases hev with h1 | h1 | h1
    · exact Or.inl ⟨_, h1⟩
    · exact Or.inr (Or.inl h1)
    · exact Or.inr (Or.inr ⟨_, h1⟩)

lemma enable_patch_count (e : Env) (c : Counters) (app : String) :
    ((enable_auto_sync e c app).2.countP isPatchEv) ≤ 1 := by
  rcases h : e.getApp c.g app with _ | d
  · rw [enable_none e c app h]
    simp [List.countP, List.countP.go, isPatchEv]
  · obtain ⟨m, hm⟩ := enable_some e c app d h
    rw [hm]
    simp [List.countP, List.countP.go, isPatchEv]

lemma enable_counters (e : Env) (c : Counters) (app : String) :
    (enable_auto_sync e c app).1 =
      (match e.getApp c.g app with
        | none => (⟨c.g + 1, c.s, c.p⟩ : Counters)
        | some _ => ⟨c.g + 1, c.s, c.p + 1⟩) := by
  rcases h : e.getApp c.g app with _ | d
  · rw [enable_none e c app h]
  · obtain ⟨m, hm⟩ := enable_some e c app d h
    rw [hm]

end ArgoCD

namespace ArgoCD

lemma runStage_notfound (e : Env) (c : Counters) (app : String) (timeout : Nat)
    (hall : ∀ k, k ≤ 13 → e.getApp (c.g + k) app = none) :
    runStage e c app timeout =
      (false, ⟨c.g + 14, c.s, c.p⟩,
        existEvents app c.g 12 ++
          [Event.getApp app (c.g + 12), Event.getApp app (c.g + 13),
           Event.console ("Application " ++ app ++ " not found")]) := by
  unfold runStage
  rw [waitExist_all_none e app 12 c (fun k hk => hall k (by omega))]
  have h13 : e.getApp (c.g + 13) app = none := hall 13 (by omega)
  simp [getAppCall, h13]

lemma runStage_shape (e : Env) (c : Counters) (app : String) (timeout : Nat) :
    ∀ ev ∈ (runStage e c app timeout).2.2,
      (∃ k, ev = Event.getApp app k) ∨ ev = Event.syncPost app ∨
      ev = Event.patch app ∨ ev = Event.sleep 5 ∨
      ∃ m, ev = Event.console m := by
  intro ev hev
  unfold runStage at hev
  set w := waitExist e app c 12 with hw
  rcases h : e.getApp w.1.g app with _ | d
  · simp only [getAppCall, h, List.mem_append, List.mem_singleton, List.mem_cons,
      List.not_mem_nil, or_false] at hev
    rcases hev with (h1 | h1) | h1
    · rcases waitExist_shape e app 12 c ev (hw ▸ h1) with h2 | h2 | h2
      · exact Or.inl h2
      · exact Or.inr (Or.inr (Or.inr (Or.inr ⟨_, h2⟩)))
      · exact Or.inr (Or.inr (Or.inr (Or.inl h2)))
    · exact Or.inl ⟨_, h1⟩
    · exact Or.inr (Or.inr (Or.inr (Or.inr ⟨_, h1⟩)))
  · simp only [getAppCall, h] at hev
    rw [sync_app_counters] at hev
    set c2 : Counters := ⟨w.1.g + 1, w.1.s + 1, w.1.p⟩ with hc2
    set hh := wait_for_health e c2 app timeout "Healthy" 0 with hhh
    by_cases hb : hh.1 = true
    · rw [if_pos hb] at hev
      simp only [List.mem_append, List.mem_singleton, List.mem_cons,
      List.not_mem_nil, or_false] at hev
      rcases hev with (((h1 | h1) | h1) | h1) | h1
      · rcases waitExist_shape e app 12 c ev (hw ▸ h1) with h2 | h2 | h2
        · exact Or.inl h2
        · exact Or.inr (Or.inr (Or.inr (Or.inr ⟨_, h2⟩)))
        · exact Or.inr (Or.inr (Or.inr (Or.inl h2)))
      · exact Or.inl ⟨_, h1⟩
      · rcases sync_app_shape e _ app ev h1 with h2 | h2
        · exact Or.inr (Or.inr (Or.inr (Or.inr h2)))
        · exact Or.inr (Or.inl h2)
      · rcases wfh_shape e app "Healthy" timeout timeout 0 c2 (by omega) ev
            (hhh ▸ h1) with h2 | h2 | h2
        · exact Or.inl h2
        · exact Or.inr (Or.inr (Or.inr (Or.inl h2)))
        · exact Or.inr (Or.inr (Or.inr (Or.inr h2)))
      · rcases enable_shape e _ app ev h1 with h2 | h2 | h2
        · exact Or.inl h2
        · exact Or.inr (Or.inr (Or.inl h2))
        · exact Or.inr (Or.inr (Or.inr (Or.inr h2)))
    · rw [if_neg hb] at hev
      simp only [List.mem_append, List.mem_singleton, List.mem_cons,
      List.not_mem_nil, or_false] at hev
      rcases hev with (((h1 | h1) | h1) | h1) | h1 | h1
      · rcases waitExist_shape e app 12 c ev (hw ▸ h1) with h2 | h2 | h2
        · exact Or.inl h2
        · exact Or.inr (Or.inr (Or.inr (Or.inr ⟨_, h2⟩)))
        · exact Or.inr (Or.inr (Or.inr (Or.inl h2)))
      · exact Or.inl ⟨_, h1⟩
      · rcases sync_app_shape e _ app ev h1 with h2 | h2
        · exact Or.inr (Or.inr (Or.inr (Or.inr h2)))
        · exact Or.inr (Or.inl h2)
      · rcases wfh_shape e app "Healthy" timeout timeout 0 c2 (by omega) ev
            (hhh ▸ h1) with h2 | h2 | h2
        · exact Or.inl h2
        · exact Or.inr (Or.inr (Or.inr (Or.inl h2)))
        · exact Or.inr (Or.inr (Or.inr (Or.inr h2)))
      · exact Or.inr (Or.inr (Or.inr (Or.inr ⟨_, h1⟩)))
      · exact Or.inr (Or.inr (Or.inr (Or.inr ⟨_, h1⟩)))

end ArgoCD

namespace ArgoCD

lemma runStage_congr (e e2 : Env) (hg : e.getApp = e2.getApp)
    (c : Counters) (app : String) (timeout : Nat) :
    (runStage e c app timeout).1 = (runStage e2 c app timeout).1 ∧
    (runStage e c app timeout).2.1 = (runStage e2 c app timeout).2.1 := by
  unfold runStage
  rw [waitExist_congr e e2 hg app 12 c]
  set w := waitExist e2 app c 12 with hw
  rcases h : e2.getApp w.1.g app with _ | d
  · simp only [getAppCall, hg, h]
    exact ⟨by trivial, by trivial⟩
  · simp only [getAppCall, hg, h]
    rw [sync_app_counters, sync_app_counters]
    rw [wfh_congr e e2 hg app "Healthy" timeout timeout 0 _ (by omega)]
    set hh := wait_for_health e2 ⟨w.1.g + 1, w.1.s + 1, w.1.p⟩ app timeout
      "Healthy" 0 with hhh
    by_cases hb : hh.1 = true
    · rw [if_pos hb, if_pos hb]
      refine ⟨rfl, ?_⟩
      simp only
      rw [enable_counters, enable_counters, hg]
    · rw [if_neg hb, if_neg hb]
      exact ⟨rfl, rfl⟩

lemma syncStages_fail_head (e : Env) (c : Counters) (app : String)
    (timeout : Nat) (rest : List (String × Nat))
    (hf : (runStage e c app timeout).1 = false) :
    syncStages e c ((app, timeout) :: rest) =
      (false, (runStage e c app timeout).2.1, (runStage e c app timeout).2.2) := by
  unfold syncStages
  rw [if_neg (by simp [hf])]

lemma syncStages_ok_head (e : Env) (c : Counters) (app : String)
    (timeout : Nat) (rest : List (String × Nat))
    (hf : (runStage e c app timeout).1 = true) :
    syncStages e c ((app, timeout) :: rest) =
      ((syncStages e (runStage e c app timeout).2.1 rest).1,
       (syncStages e (runStage e c app timeout).2.1 rest).2.1,
       (runStage e c app timeout).2.2 ++
         (syncStages e (runStage e c app timeout).2.1 rest).2.2) := by
  simp only [syncStages]
  rw [if_pos hf]

lemma syncStages_congr (e e2 : Env) (hg : e.getApp = e2.getApp) :
    ∀ (l : List (String × Nat)) (c : Counters),
      (syncStages e c l).1 = (syncStages e2 c l).1 ∧
      (syncStages e c l).2.1 = (syncStages e2 c l).2.1 := by
  intro l
  induction l with
  | nil => intro c; exact ⟨rfl, rfl⟩
  | cons hd tl ih =>
      intro c
      obtain ⟨a, tmo⟩ := hd
      obtain ⟨hfl, hct⟩ := runStage_congr e e2 hg c a tmo
      by_cases hb : (runStage e c a tmo).1 = true
      · rw [syncStages_ok_head e c a tmo tl hb,
          syncStages_ok_head e2 c a tmo tl (hfl ▸ hb)]
        rw [← hct]
        exact ⟨(ih _).1, (ih _).2⟩
      · have hb2 : (runStage e c a tmo).1 = false := by
          revert hb; cases (runStage e c a tmo).1 <;> simp
        rw [syncStages_fail_head e c a tmo tl hb2,
          syncStages_fail_head e2 c a tmo tl (hfl ▸ hb2)]
        exact ⟨rfl, hct⟩

lemma wfh_no_patch (e : Env) (app target : String) (timeout t : Nat)
    (c : Counters) :
    ∀ ev ∈ (wait_for_health e c app timeout target t).2.2,
      isPatchEv ev = false := by
  intro ev hev
  rcases wfh_shape e app target timeout timeout t c (by omega) ev hev with
    ⟨k, hk⟩ | hk | ⟨m, hk⟩ <;> subst hk <;> rfl

lemma waitExist_no_patch (e : Env) (app : String) (fuel : Nat) (c : Counters) :
    ∀ ev ∈ (waitExist e app c fuel).2, isPatchEv ev = false := by
  intro ev hev
  rcases waitExist_shape e app fuel c ev hev with ⟨k, hk⟩ | hk | hk <;>
    subst hk <;> rfl

lemma sync_app_no_patch (e : Env) (c : Counters) (app : String) :
    ∀ ev ∈ (sync_app e c app).2.2, isPatchEv ev = false := by
  intro ev hev
  rcases sync_app_shape e c app ev hev with ⟨m, hk⟩ | hk <;> subst hk <;> rfl

lemma runStage_degraded (e : Env) (c : Counters) (app : String) (timeout : Nat)
    (hex0 : e.getApp c.g app ≠ none) (hex1 : e.getApp (c.g + 1) app ≠ none)
    (i : Nat) (hbud : 5 * i < timeout)
    (hpre : ∀ j, j < i → ¬ terminalSt (pollPair e app (c.g + 2) j) "Healthy")
    (hnt : ¬ hitsTarget (pollPair e app (c.g + 2) i) "Healthy")
    (hdeg : degradedSt (pollPair e app (c.g + 2) i)) :
    (runStage e c app timeout).1 = false ∧
      Event.console (app ++ " is Degraded") ∈ (runStage e c app timeout).2.2 := by
  unfold runStage
  rw [waitExist_found e app 0 12 c (by omega) (by omega) (by simpa using hex0)]
  obtain ⟨d, hd⟩ := Option.ne_none_iff_exists.mp hex1
  simp only [getAppCall, existEvents, ← hd, Nat.add_zero]
  rw [sync_app_counters]
  simp only
  have hwfh := wfh_stop_degraded e app "Healthy" timeout i 0
    ⟨c.g + 1 + 1, c.s + 1, c.p⟩ (by omega) (by simpa [Nat.add_assoc] using hpre)
    (by simpa [Nat.add_assoc] using hnt) (by simpa [Nat.add_assoc] using hdeg)
  simp only at hwfh
  rw [hwfh]
  simp

lemma runStage_timeout (e : Env) (c : Counters) (app : String) (timeout : Nat)
    (hex0 : e.getApp c.g app ≠ none) (hex1 : e.getApp (c.g + 1) app ≠ none)
    (hall : ∀ i, 5 * i < timeout →
      ¬ terminalSt (pollPair e app (c.g + 2) i) "Healthy") :
    (runStage e c app timeout).1 = false ∧
      Event.console ("Timeout waiting for " ++ app) ∈
        (runStage e c app timeout).2.2 := by
  unfold runStage
  rw [waitExist_found e app 0 12 c (by omega) (by omega) (by simpa using hex0)]
  obtain ⟨d, hd⟩ := Option.ne_none_iff_exists.mp hex1
  simp only [getAppCall, existEvents, ← hd, Nat.add_zero]
  rw [sync_app_counters]
  simp only
  obtain ⟨m, hm⟩ := wfh_timeout_aux e app "Healthy" timeout timeout 0
    ⟨c.g + 1 + 1, c.s + 1, c.p⟩ (by omega) (by simpa [Nat.add_assoc] using hall)
  simp only at hm
  rw [hm]
  simp

end ArgoCD

namespace ArgoCD

lemma runStage_patch (e : Env) (c : Counters) (app : String) (timeout : Nat) :
    ∀ x, Event.patch x ∈ (runStage e c app timeout).2.2 →
      x = app ∧ (runStage e c app timeout).1 = true ∧
      ∃ pre post k, (runStage e c app timeout).2.2 = pre ++ Event.patch x :: post ∧
        Event.getApp app k ∈ pre ∧
        get_app_status_pure (e.getApp k app) = ("Synced", "Healthy") := by
  intro x hx
  unfold runStage at hx ⊢
  set w := waitExist e app c 12 with hw
  rcases h : e.getApp w.1.g app with _ | d
  · simp only [getAppCall, h, List.mem_append, List.mem_singleton, List.mem_cons,
      List.not_mem_nil, or_false] at hx
    rcases hx with (h1 | h1) | h1
    · have := waitExist_no_patch e app 12 c (Event.patch x) (hw ▸ h1)
      simp [isPatchEv] at this
    · simp at h1
    · simp at h1
  · simp only [getAppCall, h] at hx ⊢
    rw [sync_app_counters] at hx ⊢
    set c2 : Counters := ⟨w.1.g + 1, w.1.s + 1, w.1.p⟩ with hc2
    set hh := wait_for_health e c2 app timeout "Healthy" 0 with hhh
    by_cases hb : hh.1 = true
    · rw [if_pos hb] at hx ⊢
      simp only [List.mem_append, List.mem_singleton, List.mem_cons,
        List.not_mem_nil, or_false] at hx
      rcases hx with (((h1 | h1) | h1) | h1) | h1
      · have := waitExist_no_patch e app 12 c (Event.patch x) (hw ▸ h1)
        simp [isPatchEv] at this
      · simp at h1
      · have := sync_app_no_patch e _ app (Event.patch x) h1
        simp [isPatchEv] at this
      · have := wfh_no_patch e app "Healthy" timeout 0 c2 (Event.patch x)
          (hhh ▸ h1)
        simp [isPatchEv] at this
      · rcases hen : e.getApp hh.2.1.g app with _ | d2
        · rw [enable_none e hh.2.1 app hen] at h1
          simp at h1
        · obtain ⟨m, hm⟩ := enable_some e hh.2.1 app d2 hen
          rw [hm] at h1
          simp at h1
          refine ⟨h1, rfl, ?_⟩
          obtain ⟨i, hbud, htar, hpre⟩ :=
            (wfh_true_iff e app "Healthy" timeout 0 c2).mp hb
          have hstop := wfh_stop_target e app "Healthy" timeout i 0 c2 hbud hpre htar
          refine ⟨w.2 ++ [Event.getApp app w.1.g] ++
              (sync_app e ⟨w.1.g + 1, w.1.s, w.1.p⟩ app).2.2 ++ hh.2.2 ++
              [Event.getApp app hh.2.1.g],
            [Event.console m], c2.g + i, ?_, ?_, ?_⟩
          · rw [hm]
            subst h1
            simp [List.append_assoc]
          · have : Event.getApp app (c2.g + i) ∈ hh.2.2 := by
              rw [hhh, hstop]
              simp
            simp only [List.mem_append]
            tauto
          · have h1' := htar.1
            have h2' := htar.2
            unfold pollPair at h1' h2'
            exact Prod.ext h2' h1'
    · rw [if_neg hb] at hx
      simp only [List.mem_append, List.mem_singleton, List.mem_cons,
        List.not_mem_nil, or_false] at hx
      rcases hx with (((h1 | h1) | h1) | h1) | h1 | h1
      · have := waitExist_no_patch e app 12 c (Event.patch x) (hw ▸ h1)
        simp [isPatchEv] at this
      · simp at h1
      · have := sync_app_no_patch e _ app (Event.patch x) h1
        simp [isPatchEv] at this
      · have := wfh_no_patch e app "Healthy" timeout 0 c2 (Event.patch x)
          (hhh ▸ h1)
        simp [isPatchEv] at this
      · simp at h1
      · simp at h1

lemma countP_zero_of_no_patch {l : List Event}
    (h : ∀ ev ∈ l, isPatchEv ev = false) : l.countP isPatchEv = 0 := by
  rw [List.countP_eq_zero]
  intro a ha
  simp [h a ha]

lemma runStage_patch_count (e : Env) (c : Counters) (app : String)
    (timeout : Nat) :
    (runStage e c app timeout).2.2.countP isPatchEv ≤ 1 := by
  unfold runStage
  set w := waitExist e app c 12 with hw
  rcases h : e.getApp w.1.g app with _ | d
  · simp only [getAppCall]
    rw [h]
    simp only [List.countP_append]
    rw [countP_zero_of_no_patch (waitExist_no_patch e app 12 c)]
    simp [List.countP, List.countP.go, isPatchEv]
  · simp only [getAppCall]
    rw [h]
    rw [sync_app_counters]
    set c2 : Counters := ⟨w.1.g + 1, w.1.s + 1, w.1.p⟩ with hc2
    set hh := wait_for_health e c2 app timeout "Healthy" 0 with hhh
    by_cases hb : hh.1 = true
    · rw [if_pos hb]
      simp only [List.countP_append]
      rw [countP_zero_of_no_patch (waitExist_no_patch e app 12 c),
        countP_zero_of_no_patch (sync_app_no_patch e _ app),
        countP_zero_of_no_patch (wfh_no_patch e app "Healthy" timeout 0 c2)]
      have := enable_patch_count e hh.2.1 app
      simp [List.countP_cons, List.countP_nil, isPatchEv] at this ⊢
      omega
    · rw [if_neg hb]
      simp only [List.countP_append]
      rw [countP_zero_of_no_patch (waitExist_no_patch e app 12 c),
        countP_zero_of_no_patch (sync_app_no_patch e _ app),
        countP_zero_of_no_patch (wfh_no_patch e app "Healthy" timeout 0 c2)]
      simp [List.countP, List.countP.go, isPatchEv]

lemma apiRequests_hit (a : AuthEnv) :
    ∀ (m : Nat) (tok : String) (n : Nat), tok ≠ "" →
      apiRequests a (some tok) n m =
        (List.replicate m tok, some tok, n, []) := by
  intro m
  induction m with
  | zero => intro tok n htok; rfl
  | succ m ih =>
      intro tok n htok
      have htt : tokenTruthy (some tok) = true := by
        simp [tokenTruthy, htok]
      simp only [apiRequests, api_request, get_token, htt, if_true]
      rw [ih tok n htok]
      simp [List.replicate]

lemma apiRequests_cold (a : AuthEnv) (htok : a.sessionToken 0 ≠ "") (m : Nat) :
    apiRequests a none 0 (m + 1) =
      (List.replicate (m + 1) (a.sessionToken 0), some (a.sessionToken 0), 1,
        [AuthEvent.readSecret, AuthEvent.sessionPost a.adminPassword]) := by
  have htt : tokenTruthy (none : Option String) = false := rfl
  simp only [apiRequests, api_request, get_token, htt]
  simp only [Bool.false_eq_true, if_false]
  rw [apiRequests_hit a m (a.sessionToken 0) 1 htok]
  simp [List.replicate]

end ArgoCD

namespace ArgoCD

lemma degraded_not_healthy {st : String × String} (h : degradedSt st) :
    ¬ hitsTarget st "Healthy" := by
  intro hh
  unfold degradedSt at h
  unfold hitsTarget at hh
  rw [h] at hh
  exact absurd hh.1 (by decide)

/-- C1: `wait_for_health` (polled with the orchestrator's target
`Healthy` from elapsed time 0) returns success exactly when some poll
observes `health = Healthy` and `sync = Synced` together with no
earlier terminal poll; on that first such poll it stops at once — the
counter shows exactly i+1 polls and the trace ends at the observing
poll with no further sleep; and a `false` outcome arises only from a
first `Degraded` poll or from exhausting the timeout with no terminal
poll. -/
theorem claim1_wait_for_health_terminal (e : Env) (c : Counters)
    (app : String) (timeout : Nat) :
    ((wait_for_health e c app timeout "Healthy" 0).1 = true ↔
      ∃ i, 5 * i < timeout ∧ hitsTarget (pollPair e app c.g i) "Healthy" ∧
        ∀ j, j < i → ¬ terminalSt (pollPair e app c.g j) "Healthy")
    ∧ (∀ i, 5 * i < timeout →
        hitsTarget (pollPair e app c.g i) "Healthy" →
        (∀ j, j < i → ¬ terminalSt (pollPair e app c.g j) "Healthy") →
        wait_for_health e c app timeout "Healthy" 0 =
          (true, ⟨c.g + i + 1, c.s, c.p⟩,
            pollEvents app c.g i ++
              [Event.getApp app (c.g + i),
               Event.console (app ++ " is Healthy")]))
    ∧ ((wait_for_health e c app timeout "Healthy" 0).1 = false ↔
        (∃ i, 5 * i < timeout ∧ degradedSt (pollPair e app c.g i) ∧
          ∀ j, j < i → ¬ terminalSt (pollPair e app c.g j) "Healthy") ∨
        (∀ i, 5 * i < timeout →
          ¬ terminalSt (pollPair e app c.g i) "Healthy")) := by
  refine ⟨?_, ?_, ?_⟩
  · have h := wfh_true_iff e app "Healthy" timeout 0 c
    simpa using h
  · intro i hbud htar hpre
    have h := wfh_stop_target e app "Healthy" timeout i 0 c (by omega) hpre htar
    rw [h, String.append_assoc]
    rfl
  · have h := wfh_false_iff e app "Healthy" timeout 0 c
    constructor
    · intro hf
      rcases h.mp hf with ⟨i, hbud, hnt, hdeg, hpre⟩ | hall
      · exact Or.inl ⟨i, by omega, hdeg, hpre⟩
      · exact Or.inr fun i hi => hall i (by omega)
    · rintro (⟨i, hbud, hdeg, hpre⟩ | hall)
      · exact h.mpr (Or.inl ⟨i, by omega, degraded_not_healthy hdeg, hdeg, hpre⟩)
      · exact h.mpr (Or.inr fun i hi => hall i (by omega))

theorem claim1_witness :
    5 * 0 < 300 ∧
    hitsTarget (pollPair envHealthy "a" 0 0) "Healthy" ∧
    wait_for_health envHealthy ⟨0, 0, 0⟩ "a" 300 "Healthy" 0 =
      (true, ⟨1, 0, 0⟩,
        [Event.getApp "a" 0, Event.console ("a" ++ " is Healthy")]) := by
  refine ⟨by decide, by decide, ?_⟩
  have h := (claim1_wait_for_health_terminal envHealthy ⟨0, 0, 0⟩ "a" 300).2.1
    0 (by decide) (by decide) (by intro j hj; omega)
  simpa [pollEvents] using h

/-- C2: a status poll observing `Degraded` before any target pair ends
`wait_for_health` immediately with `false` — after exactly i+1 polls,
whatever timeout budget remains — and a failed stage makes
`sync_in_order` return `False` at once: the sequencing produces exactly
the failed stage's trace, so no later stage is ever run; in particular
a stage whose polling hits `Degraded` aborts the whole remaining
sequence. -/
theorem claim2_degraded_aborts (e : Env) (c : Counters) (app : String)
    (timeout : Nat) :
    (∀ i, 5 * i < timeout →
      degradedSt (pollPair e app c.g i) →
      (∀ j, j < i → ¬ terminalSt (pollPair e app c.g j) "Healthy") →
      wait_for_health e c app timeout "Healthy" 0 =
        (false, ⟨c.g + i + 1, c.s, c.p⟩,
          pollEvents app c.g i ++
            [Event.getApp app (c.g + i),
             Event.console (app ++ " is Degraded")]))
    ∧ (∀ (stage : String × Nat) (rest : List (String × Nat)),
        (runStage e c stage.1 stage.2).1 = false →
        syncStages e c (stage :: rest) =
          (false, (runStage e c stage.1 stage.2).2.1,
            (runStage e c stage.1 stage.2).2.2))
    ∧ (∀ (rest : List (String × Nat)),
        e.getApp c.g app ≠ none → e.getApp (c.g + 1) app ≠ none →
        ∀ i, 5 * i < timeout → degradedSt (pollPair e app (c.g + 2) i) →
        (∀ j, j < i → ¬ terminalSt (pollPair e app (c.g + 2) j) "Healthy") →
        syncStages e c ((app, timeout) :: rest) =
          (false, (runStage e c app timeout).2.1,
            (runStage e c app timeout).2.2)) := by
  refine ⟨?_, ?_, ?_⟩
  · intro i hbud hdeg hpre
    exact wfh_stop_degraded e app "Healthy" timeout i 0 c (by omega) hpre
      (degraded_not_healthy hdeg) hdeg
  · intro stage rest hf
    obtain ⟨a, tmo⟩ := stage
    exact syncStages_fail_head e c a tmo rest hf
  · intro rest hex0 hex1 i hbud hdeg hpre
    exact syncStages_fail_head e c app timeout rest
      (runStage_degraded e c app timeout hex0 hex1 i hbud hpre
        (degraded_not_healthy hdeg) hdeg).1

theorem claim2_witness :
    degradedSt (pollPair envDegraded "a" 0 0) ∧
    wait_for_health envDegraded ⟨0, 0, 0⟩ "a" 300 "Healthy" 0 =
      (false, ⟨1, 0, 0⟩,
        [Event.getApp "a" 0, Event.console ("a" ++ " is Degraded")]) ∧
    syncStages envDegraded ⟨0, 0, 0⟩ [("a", 300), ("b", 600)] =
      (false, (runStage envDegraded ⟨0, 0, 0⟩ "a" 300).2.1,
        (runStage envDegraded ⟨0, 0, 0⟩ "a" 300).2.2) := by
  refine ⟨by decide, ?_, ?_⟩
  · have h := (claim2_degraded_aborts envDegraded ⟨0, 0, 0⟩ "a" 300).1
      0 (by decide) (by decide) (by intro j hj; omega)
    simpa [pollEvents] using h
  · refine (claim2_degraded_aborts envDegraded ⟨0, 0, 0⟩ "a" 300).2.1
      ("a", 300) [("b", 600)] ?_
    simp [runStage, waitExist, getAppCall, envDegraded, docDegraded, sync_app,
      wait_for_health, getAppStatusCall, get_app_status_pure]

end ArgoCD

namespace ArgoCD

/-- C3 counterexample: on a control plane whose first 13 application
GETs report the application missing, the claim predicts a not-found
failure of the rollout; but the Python loop re-checks once more after
the 12-retry loop, and with that 14th check succeeding the rollout
completes successfully. -/
theorem claim3_counterexample :
    (∀ k, k < 13 → envLate.getApp k "crossplane-x" = none) ∧
    (sync_in_order envLate "x").1 = true := by
  constructor
  · decide
  · simp [sync_in_order, appsFor, syncStages, runStage, waitExist, getAppCall,
      envLate, docHealthy, sync_app, wait_for_health, getAppStatusCall,
      get_app_status_pure, enable_auto_sync]

/-- C3 (amended): the await-existence loop probes every 5 time units,
12 retries (13 in-loop probes, 12 sleeps ≈ 60 time units), and the
stage then re-checks existence once more; when all 14 consecutive
checks report the application absent, the stage and the whole rollout
fail with the not-found message and the trace is exactly the failed
stage's — no later stage runs. -/
theorem claim3_amended (e : Env) (c : Counters) (app : String)
    (timeout : Nat) (rest : List (String × Nat))
    (hall : ∀ k, k ≤ 13 → e.getApp (c.g + k) app = none) :
    syncStages e c ((app, timeout) :: rest) =
      (false, ⟨c.g + 14, c.s, c.p⟩,
        existEvents app c.g 12 ++
          [Event.getApp app (c.g + 12), Event.getApp app (c.g + 13),
           Event.console ("Application " ++ app ++ " not found")]) := by
  have h := runStage_notfound e c app timeout hall
  rw [syncStages_fail_head e c app timeout rest (by rw [h]), h]

theorem claim3_witness :
    syncStages envAbsent ⟨0, 0, 0⟩ [("a", 300)] =
      (false, ⟨14, 0, 0⟩,
        existEvents "a" 0 12 ++
          [Event.getApp "a" 12, Event.getApp "a" 13,
           Event.console ("Application " ++ "a" ++ " not found")]) := by
  simpa using claim3_amended envAbsent ⟨0, 0, 0⟩ "a" 300 []
    (by intro k hk; rfl)

/-- C4: with stages `[A, B, C]` in order, if stage A fails then the
whole sequence returns `False` and every client call recorded in the
trace — existence / status GET, sync POST, auto-sync PATCH — addresses
application A only: none of B's or C's client operations are ever
invoked. -/
theorem claim4_failure_halts (e : Env) (c : Counters) (a b c3 : String)
    (ta tb tc : Nat) (hf : (runStage e c a ta).1 = false) :
    (syncStages e c [(a, ta), (b, tb), (c3, tc)]).1 = false ∧
    ∀ ev ∈ (syncStages e c [(a, ta), (b, tb), (c3, tc)]).2.2,
      ∀ x, callApp ev = some x → x = a := by
  rw [syncStages_fail_head e c a ta _ hf]
  refine ⟨rfl, ?_⟩
  intro ev hev x hx
  simp only at hev
  rcases runStage_shape e c a ta ev hev with ⟨k, hk⟩ | hk | hk | hk | ⟨m, hk⟩ <;>
    subst hk <;> simp [callApp] at hx <;> exact hx.symm

theorem claim4_witness :
    (syncStages envAbsent ⟨0, 0, 0⟩ [("a", 300), ("b", 600), ("c", 900)]).1 =
      false ∧
    Event.getApp "b" 0 ∉
      (syncStages envAbsent ⟨0, 0, 0⟩ [("a", 300), ("b", 600), ("c", 900)]).2.2 := by
  have hf : (runStage envAbsent ⟨0, 0, 0⟩ "a" 300).1 = false := by
    simp [runStage, waitExist, getAppCall, envAbsent]
  have h := claim4_failure_halts envAbsent ⟨0, 0, 0⟩ "a" "b" "c" 300 600 900 hf
  refine ⟨h.1, fun hmem => ?_⟩
  have := h.2 _ hmem "b" rfl
  exact absurd this (by decide)

end ArgoCD

namespace ArgoCD

/-- C5: `get_app_status` never fails its caller on not-found — a 404
yields `(Unknown, Unknown)` rather than an error — while any other
4xx/5xx HTTP failure (401 auth failure, 5xx control plane errors, ...)
propagates as a hard `Except.error` carrying the status code, and a
successful response is read normally. -/
theorem claim5_not_found_is_unknown (r : HttpResponse) :
    (r.status_code = 404 →
      get_app r = Except.ok none ∧
      get_app_status r = Except.ok ("Unknown", "Unknown")) ∧
    (400 ≤ r.status_code → r.status_code < 600 → r.status_code ≠ 404 →
      get_app r = Except.error r.status_code ∧
      get_app_status r = Except.error r.status_code) ∧
    (r.status_code < 400 →
      get_app r = Except.ok r.body ∧
      get_app_status r = Except.ok (get_app_status_pure r.body)) := by
  refine ⟨?_, ?_, ?_⟩
  · intro h404
    unfold get_app_status get_app
    rw [if_pos h404]
    exact ⟨rfl, rfl⟩
  · intro hlo hhi hne
    unfold get_app_status get_app raise_for_status
    rw [if_neg hne, if_pos ⟨hlo, hhi⟩]
    exact ⟨rfl, rfl⟩
  · intro hok
    unfold get_app_status get_app raise_for_status
    rw [if_neg (by omega), if_neg (by omega)]
    exact ⟨rfl, rfl⟩

theorem claim5_witness :
    get_app ⟨404, none⟩ = Except.ok none ∧
    get_app_status ⟨404, none⟩ = Except.ok ("Unknown", "Unknown") ∧
    get_app_status ⟨503, none⟩ = Except.error 503 ∧
    get_app_status ⟨401, some docHealthy⟩ = Except.error 401 := by
  refine ⟨((claim5_not_found_is_unknown ⟨404, none⟩).1 rfl).1,
    ((claim5_not_found_is_unknown ⟨404, none⟩).1 rfl).2,
    ((claim5_not_found_is_unknown ⟨503, none⟩).2.1 (by decide) (by decide)
      (by decide)).2,
    ((claim5_not_found_is_unknown ⟨401, some docHealthy⟩).2.1 (by decide)
      (by decide) (by decide)).2⟩

/-- C6 counterexample: `sync_in_order` returns a bare boolean.  Two
rollouts that fail at different stages for different reasons — one
fails stage `crossplane-x` with not-found, the other passes it and
fails stage `crossplane-providers-x` with degraded — return the very
same value, so the returned result identifies neither the failing
stage nor the reason; those are only visible in the console output. -/
theorem claim6_counterexample :
    (sync_in_order envAbsent "x").1 = (sync_in_order envSecondDegraded "x").1 ∧
    Event.console "Application crossplane-x not found" ∈
      (sync_in_order envAbsent "x").2 ∧
    Event.console "crossplane-providers-x is Degraded" ∈
      (sync_in_order envSecondDegraded "x").2 := by
  refine ⟨?_, ?_, ?_⟩
  · simp [sync_in_order, appsFor, syncStages, runStage, waitExist, getAppCall,
      envAbsent, envSecondDegraded, docHealthy, docDegraded, sync_app,
      wait_for_health, getAppStatusCall, get_app_status_pure, enable_auto_sync]
  · simp [sync_in_order, appsFor, syncStages, runStage, waitExist, getAppCall,
      envAbsent, existEvents]
  · simp [sync_in_order, appsFor, syncStages, runStage, waitExist, getAppCall,
      envSecondDegraded, docHealthy, docDegraded, sync_app, wait_for_health,
      getAppStatusCall, get_app_status_pure, enable_auto_sync]

/-- C6 (amended): the value returned by the orchestrator is only a
boolean success flag; on failure the identity of the failing stage and
the reason — not-found, degraded or timeout — are reported through
distinct console messages naming the stage, not carried in the
returned value. -/
theorem claim6_amended (e : Env) (c : Counters) (app : String)
    (timeout : Nat) (rest : List (String × Nat)) :
    ((∀ k, k ≤ 13 → e.getApp (c.g + k) app = none) →
      (syncStages e c ((app, timeout) :: rest)).1 = false ∧
      Event.console ("Application " ++ app ++ " not found") ∈
        (syncStages e c ((app, timeout) :: rest)).2.2) ∧
    (e.getApp c.g app ≠ none → e.getApp (c.g + 1) app ≠ none →
      ∀ i, 5 * i < timeout → degradedSt (pollPair e app (c.g + 2) i) →
      (∀ j, j < i → ¬ terminalSt (pollPair e app (c.g + 2) j) "Healthy") →
      (syncStages e c ((app, timeout) :: rest)).1 = false ∧
      Event.console (app ++ " is Degraded") ∈
        (syncStages e c ((app, timeout) :: rest)).2.2) ∧
    (e.getApp c.g app ≠ none → e.getApp (c.g + 1) app ≠ none →
      (∀ i, 5 * i < timeout →
        ¬ terminalSt (pollPair e app (c.g + 2) i) "Healthy") →
      (syncStages e c ((app, timeout) :: rest)).1 = false ∧
      Event.console ("Timeout waiting for " ++ app) ∈
        (syncStages e c ((app, timeout) :: rest)).2.2) := by
  refine ⟨?_, ?_, ?_⟩
  · intro hall
    have h := runStage_notfound e c app timeout hall
    rw [syncStages_fail_head e c app timeout rest (by rw [h]), h]
    simp
  · intro hex0 hex1 i hbud hdeg hpre
    have h := runStage_degraded e c app timeout hex0 hex1 i hbud hpre
      (degraded_not_healthy hdeg) hdeg
    rw [syncStages_fail_head e c app timeout rest h.1]
    exact ⟨rfl, h.2⟩
  · intro hex0 hex1 hall
    have h := runStage_timeout e c app timeout hex0 hex1 hall
    rw [syncStages_fail_head e c app timeout rest h.1]
    exact ⟨rfl, h.2⟩

theorem claim6_witness :
    (syncStages envAbsent ⟨0, 0, 0⟩ [("a", 300)]).1 = false ∧
    Event.console ("Application " ++ "a" ++ " not found") ∈
      (syncStages envAbsent ⟨0, 0, 0⟩ [("a", 300)]).2.2 ∧
    (syncStages envDegraded ⟨0, 0, 0⟩ [("a", 300)]).1 = false ∧
    Event.console ("a" ++ " is Degraded") ∈
      (syncStages envDegraded ⟨0, 0, 0⟩ [("a", 300)]).2.2 := by
  have h1 := (claim6_amended envAbsent ⟨0, 0, 0⟩ "a" 300 []).1
    (by intro k hk; rfl)
  have h2 := (claim6_amended envDegraded ⟨0, 0, 0⟩ "a" 300 []).2.1
    (by decide) (by decide) 0 (by decide) (by decide) (by intro j hj; omega)
  exact ⟨h1.1, h1.2, h2.1, h2.2⟩

/-- C7: the sync acknowledgment is advisory only — two control planes
that agree on application GETs (and PATCH codes) but answer the sync
POST arbitrarily differently produce the same rollout outcome at every
stage list and for the whole `sync_in_order` run; a non-2xx sync
response merely logs the returned code, makes `sync_app` return
`False`, and execution proceeds normally (counters advance as always,
no exception is modelled because none is raised). -/
theorem claim7_sync_ack_advisory (e e2 : Env) (c : Counters)
    (hg : e.getApp = e2.getApp) (_hp : e.patchCode = e2.patchCode) :
    (∀ l, (syncStages e c l).1 = (syncStages e2 c l).1) ∧
    (∀ envName, (sync_in_order e envName).1 = (sync_in_order e2 envName).1) ∧
    (∀ app, e.syncCode c.s app ≠ 200 → e.syncCode c.s app ≠ 201 →
      (sync_app e c app).1 = false ∧
      Event.console ("Sync request returned " ++ toString (e.syncCode c.s app)) ∈
        (sync_app e c app).2.2 ∧
      (sync_app e c app).2.1 = ⟨c.g, c.s + 1, c.p⟩) := by
  refine ⟨fun l => (syncStages_congr e e2 hg l c).1, ?_, ?_⟩
  · intro envName
    unfold sync_in_order
    have h := (syncStages_congr e e2 hg (appsFor envName) ⟨0, 0, 0⟩).1
    by_cases hb : (syncStages e ⟨0, 0, 0⟩ (appsFor envName)).1 = true
    · rw [if_pos hb, if_pos (h ▸ hb)]
    · have hb2 : ¬ (syncStages e2 ⟨0, 0, 0⟩ (appsFor envName)).1 = true := by
        rw [← h]; exact hb
      rw [if_neg hb, if_neg hb2]
  · intro app h200 h201
    obtain ⟨hf, hm⟩ := sync_app_nack e c app h200 h201
    exact ⟨hf, hm, sync_app_counters e c app⟩

theorem claim7_witness :
    (∀ l, (syncStages envSyncBusy ⟨0, 0, 0⟩ l).1 =
      (syncStages envHealthy ⟨0, 0, 0⟩ l).1) ∧
    (sync_in_order envSyncBusy "x").1 = (sync_in_order envHealthy "x").1 ∧
    (sync_app envSyncBusy ⟨0, 0, 0⟩ "a").1 = false ∧
    Event.console ("Sync request returned " ++ toString 409) ∈
      (sync_app envSyncBusy ⟨0, 0, 0⟩ "a").2.2 := by
  have h := claim7_sync_ack_advisory envSyncBusy envHealthy ⟨0, 0, 0⟩ rfl rfl
  have h3 := h.2.2 "a" (by decide) (by decide)
  exact ⟨h.1, h.2.1 "x", h3.1, h3.2.1⟩

end ArgoCD

namespace ArgoCD

/-- C8: in a stage, an auto-sync PATCH occurs only on the success path:
any `patch` event in the stage trace addresses that stage's
application, implies the stage succeeded, and sits strictly after a
status GET whose response read `(Synced, Healthy)`; at most one PATCH
is ever issued per stage; and the stage outcome (hence the whole
sequencing outcome) is unchanged under arbitrary changes of the PATCH
response codes — a failed enable call never fails the stage. -/
theorem claim8_enable_after_health (e : Env) (c : Counters) (app : String)
    (timeout : Nat) :
    (∀ x, Event.patch x ∈ (runStage e c app timeout).2.2 →
      x = app ∧ (runStage e c app timeout).1 = true ∧
      ∃ pre post k,
        (runStage e c app timeout).2.2 = pre ++ Event.patch x :: post ∧
        Event.getApp app k ∈ pre ∧
        get_app_status_pure (e.getApp k app) = ("Synced", "Healthy")) ∧
    ((runStage e c app timeout).2.2.countP isPatchEv ≤ 1) ∧
    (∀ e2 : Env, e.getApp = e2.getApp → e.syncCode = e2.syncCode →
      (runStage e c app timeout).1 = (runStage e2 c app timeout).1 ∧
      ∀ l, (syncStages e c l).1 = (syncStages e2 c l).1) := by
  refine ⟨runStage_patch e c app timeout, runStage_patch_count e c app timeout,
    ?_⟩
  intro e2 hg hs
  exact ⟨(runStage_congr e e2 hg c app timeout).1,
    fun l => (syncStages_congr e e2 hg l c).1⟩

theorem claim8_witness :
    Event.patch "a" ∈ (runStage envHealthy ⟨0, 0, 0⟩ "a" 300).2.2 ∧
    (runStage envHealthy ⟨0, 0, 0⟩ "a" 300).1 = true ∧
    (runStage envHealthy ⟨0, 0, 0⟩ "a" 300).2.2.countP isPatchEv ≤ 1 ∧
    (runStage envHealthy ⟨0, 0, 0⟩ "a" 300).1 =
      (runStage envPatchFail ⟨0, 0, 0⟩ "a" 300).1 := by
  have hmem : Event.patch "a" ∈ (runStage envHealthy ⟨0, 0, 0⟩ "a" 300).2.2 := by
    simp [runStage, waitExist, getAppCall, envHealthy, docHealthy, sync_app,
      wait_for_health, getAppStatusCall, get_app_status_pure, enable_auto_sync]
  have h := claim8_enable_after_health envHealthy ⟨0, 0, 0⟩ "a" 300
  exact ⟨hmem, (h.1 "a" hmem).2.1, h.2.1, (h.2.2 envPatchFail rfl rfl).1⟩

/-- C9 counterexample: the claim says authentication happens at most
once per client instance; but `_get_token` tests the cached token with
Python truthiness, so when the session exchange hands out the empty
string the cached token is falsy and a second request authenticates
again — two password reads and two session exchanges for two
requests. -/
theorem claim9_counterexample :
    (apiRequests authEmptyTok none 0 2).2.2.2 =
      [AuthEvent.readSecret, AuthEvent.sessionPost "pw",
       AuthEvent.readSecret, AuthEvent.sessionPost "pw"] ∧
    (apiRequests authEmptyTok none 0 2).2.2.1 = 2 := by
  exact ⟨rfl, rfl⟩

/-- C9 (amended): provided the exchanged session token is nonempty
(Python truthiness — an empty cached token re-triggers
authentication), the token cache behaves as claimed: the first request
performs exactly one admin-password read and one session exchange and
stores the token, and every one of the m+1 requests uses that same
stored token unchanged, with no further authentication. -/
theorem claim9_token_cached (a : AuthEnv) (htok : a.sessionToken 0 ≠ "")
    (m : Nat) :
    (apiRequests a none 0 (m + 1)).2.2.2 =
      [AuthEvent.readSecret, AuthEvent.sessionPost a.adminPassword] ∧
    (apiRequests a none 0 (m + 1)).1 =
      List.replicate (m + 1) (a.sessionToken 0) ∧
    (apiRequests a none 0 (m + 1)).2.1 = some (a.sessionToken 0) ∧
    (apiRequests a none 0 (m + 1)).2.2.1 = 1 := by
  rw [apiRequests_cold a htok m]
  exact ⟨rfl, rfl, rfl, rfl⟩

theorem claim9_witness :
    (apiRequests authGood none 0 3).2.2.2 =
      [AuthEvent.readSecret, AuthEvent.sessionPost "pw"] ∧
    (apiRequests authGood none 0 3).1 = ["tok0", "tok0", "tok0"] ∧
    (apiRequests authGood none 0 3).2.1 = some "tok0" ∧
    (apiRequests authGood none 0 3).2.2.1 = 1 := by
  have h := claim9_token_cached authGood (by decide) 2
  simpa [authGood, List.replicate] using h

/-- C10: the status extraction of `get_app_status` is total over
missing fields — an existing document with an absent `status` object,
absent `sync`/`health` sub-objects, or absent `status` keys inside them
reads `Unknown` for each missing component instead of raising a lookup
error, so a just-registered application with no `status` yet reads
`(Unknown, Unknown)`. -/
theorem claim10_missing_fields_unknown (d : AppDoc) :
    (d.status = none → get_app_status_pure (some d) = ("Unknown", "Unknown")) ∧
    (∀ st, d.status = some st → st.sync = none →
      (get_app_status_pure (some d)).1 = "Unknown") ∧
    (∀ st, d.status = some st → st.health = none →
      (get_app_status_pure (some d)).2 = "Unknown") ∧
    (∀ st s, d.status = some st → st.sync = some s → s.status = none →
      (get_app_status_pure (some d)).1 = "Unknown") ∧
    (∀ st h, d.status = some st → st.health = some h → h.status = none →
      (get_app_status_pure (some d)).2 = "Unknown") := by
  refine ⟨?_, ?_, ?_, ?_, ?_⟩
  · intro h
    simp [get_app_status_pure, h]
  · intro st hst hsync
    simp [get_app_status_pure, hst, hsync]
  · intro st hst hhealth
    simp [get_app_status_pure, hst, hhealth]
  · intro st s hst hsync hs
    simp [get_app_status_pure, hst, hsync, hs]
  · intro st h hst hhealth hh
    simp [get_app_status_pure, hst, hhealth, hh]

theorem claim10_witness :
    get_app_status_pure (some ⟨none⟩) = ("Unknown", "Unknown") ∧
    (get_app_status_pure (some ⟨some ⟨none, some ⟨some "Healthy"⟩⟩⟩)).1 =
      "Unknown" ∧
    (get_app_status_pure (some ⟨some ⟨some ⟨none⟩, none⟩⟩)).2 = "Unknown" := by
  exact ⟨(claim10_missing_fields_unknown ⟨none⟩).1 rfl,
    (claim10_missing_fields_unknown _).2.1 _ rfl rfl,
    (claim10_missing_fields_unknown _).2.2.1 _ rfl rfl⟩

end ArgoCD
